import Mathlib

/-!
Verification of the defect-structure generation engine of `apply_defects.py`
(vasp-defect-toolkit).

The Python source is shallowly embedded:
* fractional coordinates become triples of rationals (`Vec3`);
* a pymatgen `Structure` becomes a lattice (its 3×3 basis) plus an ordered
  list of sites;
* the periodic minimum-image metric computed by pymatgen's
  `structure.lattice.get_all_distances` is an external numeric routine; it
  is passed around as an abstract distance function `d : Vec3 → Vec3 → ℚ`;
* Python `dict`s (the defect delta, the POTCAR zval table) become
  association lists iterated in insertion order, with a no-duplicate-keys
  hypothesis where a proof needs it;
* fallible code returns `Except`;
* Python's builtin `round` (round-half-to-even) is `pyRound`;
* the file-writing side effects of the main loop are recorded as a list of
  written artifacts, so that partial-output behaviour is observable.
-/

namespace VaspDefects

/-- Decidable equality of `Except` results, so concrete runs of the
embedded functions can be checked by `decide`. -/
instance {ε α : Type} [DecidableEq ε] [DecidableEq α] :
    DecidableEq (Except ε α) := fun a b =>
  match a, b with
  | .error e1, .error e2 =>
    if h : e1 = e2 then .isTrue (by rw [h]) else .isFalse (by simp [h])
  | .error _, .ok _ => .isFalse (by simp)
  | .ok _, .error _ => .isFalse (by simp)
  | .ok a1, .ok a2 =>
    if h : a1 = a2 then .isTrue (by rw [h]) else .isFalse (by simp [h])

/-- An element symbol, as in `site.specie.symbol`. -/
abbrev Elem := String

/-- A fractional coordinate triple, as in `site.frac_coords`. -/
abbrev Vec3 := ℚ × ℚ × ℚ

/-- The 3×3 lattice basis (`structure.lattice.matrix`), one row per basis
vector. -/
structure Lattice where
  a1 : Vec3
  a2 : Vec3
  a3 : Vec3
deriving DecidableEq

/-- One atomic site: element symbol plus fractional coordinates. -/
structure Site where
  elem : Elem
  coords : Vec3
deriving DecidableEq

/-- A pymatgen `Structure`: a lattice plus an ordered sequence of sites. -/
structure Structure where
  lattice : Lattice
  sites : List Site
deriving DecidableEq

/-- Errors raised inside `apply_defect` (`ValueError` in the source):
`insufficientAtoms e` is `"Not enough {e} atoms to remove"`;
`insufficientSpace e added requested` is
`"Could only add {added} of {requested} requested {e} atoms"`. -/
inductive DefectError where
  | insufficientAtoms (e : Elem)
  | insufficientSpace (e : Elem) (added requested : Nat)
deriving DecidableEq

/-- Error raised by `get_valence_electrons`:
`"Element {e} not in POTCAR"`. -/
inductive ValenceError where
  | unknownElement (e : Elem)
deriving DecidableEq

/-- Failure mode of the Supercell Builder on a non-positive multiplier
(spec §4.1). -/
inductive BuildError where
  | invalidMultiplier
deriving DecidableEq

/-! ## Empty-Site Locator (`find_empty_sites`, lines 68–80) -/

/-- `np.linspace(0, 1, 10, endpoint=False)`: the ten evenly spaced grid
values 0, 1/10, …, 9/10 (the source hardcodes `grid_size = 10`). -/
def linspace10 : List ℚ := (List.range 10).map fun (i : ℕ) => (i : ℚ) / 10

/-- The triple-nested grid scan of `find_empty_sites` (outer axis x, then
y, then z, all ascending): the 10³ candidate points of `[0,1)³`. -/
def grid_points : List Vec3 :=
  linspace10.flatMap fun x =>
    linspace10.flatMap fun y =>
      linspace10.map fun z => (x, y, z)

/-- `find_empty_sites(structure, min_distance)`: keep every grid candidate
whose distance, under the structure's periodic lattice metric `d`
(pymatgen's `lattice.get_all_distances` oracle), to every existing site
exceeds `min_distance`.  The Python default `min_distance=1.5` is passed
explicitly by the one caller here. -/
def find_empty_sites (d : Vec3 → Vec3 → ℚ) (sites : List Site)
    (min_distance : ℚ) : List Vec3 :=
  grid_points.filter fun trial =>
    sites.all fun s => decide (min_distance < d trial s.coords)

/-! ## Supercell Builder (`build_supercell_with_phonopy`, lines 52–66) -/

/-- Scale a basis vector componentwise. -/
def scaleVec (q : ℚ) (v : Vec3) : Vec3 := (q * v.1, q * v.2.1, q * v.2.2)

/-- Modelled from the spec: the supercell construction performed inside the
external phonopy library (`Phonopy(unitcell, supercell_matrix)` followed by
`phonon.get_supercell()`), which is not part of this repository's sources;
the `src/apply_defects.py` wrapper only converts structure types around the
call.  Faithful to spec §4.1: the lattice basis vectors are scaled by the
multipliers; for each original site and each offset `(i,j,k)` with
`0 ≤ i < nx, 0 ≤ j < ny, 0 ≤ k < nz` (original sites outer, then `i,j,k`
nested) a site with the same element and fractional coordinate
`(orig + (i,j,k)) / (nx,ny,nz)` componentwise is emitted; a non-positive
multiplier fails with `InvalidMultiplierError`. -/
def build_supercell_with_phonopy (S : Structure) (m : ℤ × ℤ × ℤ) :
    Except BuildError Structure :=
  if m.1 ≤ 0 ∨ m.2.1 ≤ 0 ∨ m.2.2 ≤ 0 then
    .error .invalidMultiplier
  else
    let nx := m.1.toNat
    let ny := m.2.1.toNat
    let nz := m.2.2.toNat
    .ok
      { lattice :=
          { a1 := scaleVec nx S.lattice.a1
            a2 := scaleVec ny S.lattice.a2
            a3 := scaleVec nz S.lattice.a3 }
        sites :=
          S.sites.flatMap fun site =>
            (List.range nx).flatMap fun (i : ℕ) =>
              (List.range ny).flatMap fun (j : ℕ) =>
                (List.range nz).map fun (k : ℕ) =>
                  { elem := site.elem
                    coords :=
                      ((site.coords.1 + (i : ℚ)) / (nx : ℚ),
                       (site.coords.2.1 + (j : ℚ)) / (ny : ℚ),
                       (site.coords.2.2 + (k : ℚ)) / (nz : ℚ)) } }

/-! ## Defect Delta Applier (`apply_defect`, lines 82–118) -/

/-- A defect delta: the JSON object `{element: signed count}`, iterated in
insertion order like a Python `dict`. -/
abbrev Delta := List (Elem × ℤ)

/-- `[i for i, site in enumerate(mod_structure) if site.specie.symbol ==
elem]`: the ascending indices of the sites of element `e`. -/
def elemIndices (e : Elem) : List Site → List Nat
  | [] => []
  | s :: rest =>
    if s.elem = e then 0 :: (elemIndices e rest).map (· + 1)
    else (elemIndices e rest).map (· + 1)

/-- One iteration of the removal loop body:
`removed_coords.append(mod_structure[i].frac_coords)` followed by
`mod_structure.remove_sites([i])`.  An out-of-range index leaves the state
unchanged (unreachable: the loop only visits indices produced by
`enumerate`). -/
def removeRecord (sites : List Site) (i : Nat) (pool : List Vec3) :
    List Site × List Vec3 :=
  match sites[i]? with
  | some s => (sites.eraseIdx i, pool ++ [s.coords])
  | none => (sites, pool)

/-- The removal loop `for i in sorted(indices[:abs(change)], reverse=True)`
run on state `(mod_structure, removed_coords)`: the first `k` indices of
element `e`, visited in descending order. -/
def removeCore (e : Elem) (k : Nat) (sites : List Site) (pool : List Vec3) :
    List Site × List Vec3 :=
  ((elemIndices e sites).take k).reverse.foldl
    (fun st i => removeRecord st.1 i st.2) (sites, pool)

/-- The `change < 0` branch of the first loop of `apply_defect`: raise
`"Not enough {elem} atoms to remove"` when fewer than `k` sites of `e`
exist, else remove the first `k` such sites, recording their coordinates
(in removal order, i.e. descending index) into the shared vacancy pool. -/
def removeForElem (e : Elem) (k : Nat) (sites : List Site)
    (pool : List Vec3) : Except DefectError (List Site × List Vec3) :=
  if (elemIndices e sites).length < k then
    .error (.insufficientAtoms e)
  else
    .ok (removeCore e k sites pool)

/-- The first `for elem, change in delta.items()` loop of `apply_defect`
(removal phase). -/
def removal_phase :
    Delta → List Site → List Vec3 →
      Except DefectError (List Site × List Vec3)
  | [], sites, pool => .ok (sites, pool)
  | (e, change) :: rest, sites, pool =>
    if change < 0 then
      match removeForElem e change.natAbs sites pool with
      | .error err => .error err
      | .ok (sites1, pool1) => removal_phase rest sites1 pool1
    else
      removal_phase rest sites pool

/-- The second `for elem, change in delta.items()` loop of `apply_defect`
(addition phase).  For each element with positive `change`: append sites at
the first `change` coordinates of `removed_coords` (the source never
consumes the pool, so every element of the phase re-reads it from the
start); if the pool ran short, call `find_empty_sites` on the current
partially modified structure (with the default `min_distance = 1.5`) and
append candidates in scan order; if still short, raise `"Could only add
{added} of {change} requested {elem} atoms"`.  The second component of the
result counts the `find_empty_sites` invocations. -/
def addition_phase (d : Vec3 → Vec3 → ℚ) :
    Delta → List Site → List Vec3 → Except DefectError (List Site × Nat)
  | [], sites, _ => .ok (sites, 0)
  | (e, change) :: rest, sites, pool =>
    if 0 < change then
      let k := change.toNat
      let fromPool := pool.take k
      let sites1 := sites ++ fromPool.map fun c => { elem := e, coords := c }
      if fromPool.length < k then
        let empty_sites := find_empty_sites d sites1 (3 / 2)
        let fromEmpty := empty_sites.take (k - fromPool.length)
        let sites2 :=
          sites1 ++ fromEmpty.map fun c => { elem := e, coords := c }
        if fromPool.length + fromEmpty.length < k then
          .error
            (.insufficientSpace e (fromPool.length + fromEmpty.length) k)
        else
          match addition_phase d rest sites2 pool with
          | .error err => .error err
          | .ok (sites3, n) => .ok (sites3, n + 1)
      else
        addition_phase d rest sites1 pool
    else
      addition_phase d rest sites pool

/-- `apply_defect(structure, delta)` (lines 82–118).  The input structure
is copied (`structure.copy()`) and never mutated; in this pure embedding
that is reflected by the function consuming `S` only by value.  The `Nat`
in the result counts how many times `find_empty_sites` was invoked (0
means the Empty-Site Locator was never needed). -/
def apply_defect (d : Vec3 → Vec3 → ℚ) (S : Structure) (delta : Delta) :
    Except DefectError (Structure × Nat) :=
  match removal_phase delta S.sites [] with
  | .error err => .error err
  | .ok (sites1, pool) =>
    match addition_phase d delta sites1 pool with
    | .error err => .error err
    | .ok (sites2, nloc) => .ok ({ S with sites := sites2 }, nloc)

/-! ## Canonical Sorter (line 50 and line 154) -/

/-- `canonical_order = ["La", "Y", "Mo", "Pb", "W", "O"]`. -/
def canonical_order : List Elem := ["La", "Y", "Mo", "Pb", "W", "O"]

/-- The sort key of line 154:
`canonical_order.index(sym) if sym in canonical_order else 999`. -/
def sortKey (e : Elem) : Nat :=
  match canonical_order.indexOf? e with
  | some i => i
  | none => 999

/-- Insert a site into an already-sorted list, after every site with a
strictly smaller key and before every site with an equal or larger key
(the head of the unsorted input precedes its tail, so this realizes the
stable order of Python's `sorted`). -/
def insertByKey (x : Site) : List Site → List Site
  | [] => [x]
  | y :: ys =>
    if sortKey y.elem < sortKey x.elem then y :: insertByKey x ys
    else x :: y :: ys

/-- The stable sort of `structure.get_sorted_structure(key=...)` on the
site list.  A stable sort's output is uniquely determined by the key, so
this insertion sort computes the same list as Python's timsort. -/
def sortSites : List Site → List Site
  | [] => []
  | x :: xs => insertByKey x (sortSites xs)

/-- `structure.get_sorted_structure(key=lambda s: ...)` (line 154). -/
def get_sorted_structure (S : Structure) : Structure :=
  { S with sites := sortSites S.sites }

/-! ## Valence/Charge Calculator (`get_valence_electrons`, lines 120–129,
and the `nelect` expression of line 171) -/

/-- The zval table of a POTCAR: `{p.element: p.zval for p in potcar}`. -/
abbrev ZvalTable := List (Elem × ℚ)

/-- The accumulation loop of `get_valence_electrons`: `total = 0`, then
`total += zval[sym]` per site, raising `"Element {sym} not in POTCAR"` on a
missing element. -/
def valenceLoop (zval : ZvalTable) :
    List Site → ℚ → Except ValenceError ℚ
  | [], total => .ok total
  | s :: rest, total =>
    match zval.lookup s.elem with
    | none => .error (.unknownElement s.elem)
    | some z => valenceLoop zval rest (total + z)

/-- `get_valence_electrons(structure, potcar_path)`: the unrounded sum of
per-site zvals. -/
def get_valence_electrons (zval : ZvalTable) (S : Structure) :
    Except ValenceError ℚ :=
  valenceLoop zval S.sites 0

/-- Python 3's builtin `round`: round half to even, otherwise to the
nearest integer. -/
def pyRound (q : ℚ) : ℤ :=
  if q - ⌊q⌋ = 1 / 2 then (if ⌊q⌋ % 2 = 0 then ⌊q⌋ else ⌊q⌋ + 1)
  else round q

/-- Line 171: `nelect = round(get_valence_electrons(structure, ...)) +
spec.get("charge", 0)` — the Valence/Charge Calculator contract of spec
§4.5: one final rounding of the summed valence, then the net charge is
added. -/
def total_electrons (zval : ZvalTable) (S : Structure) (net_charge : ℤ) :
    Except ValenceError ℤ :=
  match get_valence_electrons zval S with
  | .error err => .error err
  | .ok q => .ok (pyRound q + net_charge)

/-! ## Orchestrator (`get_template_folder` and the main loop,
lines 131–186) -/

/-- `get_template_folder(delta)` (lines 131–140). -/
def get_template_folder (delta : Delta) : String :=
  let elements_added := (delta.filter fun p => decide (0 < p.2)).map Prod.fst
  if elements_added.contains "La" then "La_Pb_W_O"
  else if elements_added.contains "Y" then "Y_Pb_W_O"
  else if elements_added.contains "Mo" then "Mo_Pb_W_O"
  else "Pb_W_O"

/-- One defect specification from `defect_modifications.json`: the `delta`
and `charge` fields are both optional JSON keys. -/
structure DefectSpec where
  delta : Option Delta
  charge : Option ℤ
deriving DecidableEq

/-- A file written into a defect's output folder. -/
inductive Artifact where
  | poscar
  | incar
  | potcar
  | kpoints
  | jobscript
deriving DecidableEq

/-- Everything the main loop writes for a fully successful defect: POSCAR
(line 156), the copied INCAR/POTCAR/KPOINTS (lines 166–168), the INCAR
rewritten with NELECT (line 173), and the job script (lines 176–181). -/
def all_artifacts : List Artifact :=
  [.poscar, .incar, .potcar, .kpoints, .incar, .jobscript]

/-- Why the processing of one defect failed (the exception caught at line
185, tagged by its origin). -/
inductive ProcError where
  | supercellFailed (e : BuildError)
  | defectFailed (e : DefectError)
  | deltaKeyMissing
  | potcarMissing (template : String)
  | kpointsMissing
  | incarMissing (template : String)
  | valenceFailed (e : ValenceError)
  | jobTemplateMissing
deriving DecidableEq

/-- The read-only inputs and external filesystem state the main loop sees.
`d` is the periodic metric of the lattice; `potcarExists t`,
`incarExists t` tell whether template folder `t` holds a POTCAR / INCAR;
`zvalOf t` is the zval table of the POTCAR of template `t` (copied into
the defect folder before it is read back). -/
structure Env where
  unitcell : Structure
  supercell_size : ℤ × ℤ × ℤ
  d : Vec3 → Vec3 → ℚ
  potcarExists : String → Bool
  kpointsExists : Bool
  incarExists : String → Bool
  zvalOf : String → ZvalTable
  jobTemplateExists : Bool

/-- The body of the `try:` block of the main loop (lines 148–183) for one
defect spec, returning the artifacts written into the defect's folder (in
write order) and either the computed NELECT or the error that escaped to
the `except` handler.  Mirrors the source order: build the supercell,
apply `spec.get("delta", {})`, sort, write POSCAR, look up
`spec["delta"]` for the template (a `KeyError` when the key is absent),
check template POTCAR and shared KPOINTS, copy INCAR/POTCAR/KPOINTS,
compute NELECT with `spec.get("charge", 0)` and rewrite INCAR, then
rewrite the job script. -/
def process_spec (env : Env) (spec : DefectSpec) :
    List Artifact × Except ProcError ℤ :=
  match build_supercell_with_phonopy env.unitcell env.supercell_size with
  | .error err => ([], .error (.supercellFailed err))
  | .ok sc =>
    match apply_defect env.d sc (spec.delta.getD []) with
    | .error err => ([], .error (.defectFailed err))
    | .ok (st, _) =>
      let sorted := get_sorted_structure st
      let written := [Artifact.poscar]
      match spec.delta with
      | none => (written, .error .deltaKeyMissing)
      | some dl =>
        let template := get_template_folder dl
        if env.potcarExists template = false then
          (written, .error (.potcarMissing template))
        else if env.kpointsExists = false then
          (written, .error .kpointsMissing)
        else if env.incarExists template = false then
          (written, .error (.incarMissing template))
        else
          let written2 :=
            written ++ [Artifact.incar, Artifact.potcar, Artifact.kpoints]
          match total_electrons (env.zvalOf template) sorted
              (spec.charge.getD 0) with
          | .error err => (written2, .error (.valenceFailed err))
          | .ok nelect =>
            let written3 := written2 ++ [Artifact.incar]
            if env.jobTemplateExists = false then
              (written3, .error .jobTemplateMissing)
            else
              (written3 ++ [Artifact.jobscript], .ok nelect)

/-- `name.startswith("z")`, expressed on the character list (a string
starts with the one-character prefix `"z"` iff its first character is
`z`). -/
def startsWithZ (name : String) : Bool :=
  decide (name.data.head? = some 'z')

/-- One line of console output per defect. -/
inductive Report where
  | skipped (name : String)
  | done (name : String) (nelect : ℤ)
  | failed (name : String) (err : ProcError)
deriving DecidableEq

/-- One iteration of `for name, spec in defect_data.items()`: reserved
names beginning with `"z"` are skipped; otherwise the try-block runs and a
failure is caught and reported with the defect's name. -/
def process_entry (env : Env) (entry : String × DefectSpec) :
    Report × List Artifact :=
  if startsWithZ entry.1 then (.skipped entry.1, [])
  else
    match process_spec env entry.2 with
    | (w, .ok nelect) => (.done entry.1 nelect, w)
    | (w, .error err) => (.failed entry.1 err, w)

/-- The whole main loop over `defect_data.items()`. -/
def main_loop (env : Env) (specs : List (String × DefectSpec)) :
    List (Report × List Artifact) :=
  specs.map (process_entry env)

/-! ## Spec-side helper notions used by the theorem statements -/

/-- Number of sites of element `e` in a site list. -/
def countElem (e : Elem) (sites : List Site) : Nat :=
  (sites.filter fun s => decide (s.elem = e)).length

/-- A fractional coordinate triple lies in the half-open unit cube
`[0,1)³`. -/
def inUnitCube (v : Vec3) : Prop :=
  0 ≤ v.1 ∧ v.1 < 1 ∧ 0 ≤ v.2.1 ∧ v.2.1 < 1 ∧ 0 ≤ v.2.2 ∧ v.2.2 < 1

instance (v : Vec3) : Decidable (inUnitCube v) := by
  unfold inUnitCube; infer_instance

/-- The spec-side recursion equivalent to the descending-index removal
loop: drop the first `k` sites of element `e`. -/
def removeFirst (e : Elem) : Nat → List Site → List Site
  | 0, sites => sites
  | _ + 1, [] => []
  | k + 1, s :: rest =>
    if s.elem = e then removeFirst e k rest
    else s :: removeFirst e (k + 1) rest

/-- The coordinates of the first `k` sites of element `e`, in structure
order — the vacancies created by removing `k` atoms of `e`. -/
def vacatedCoords (e : Elem) (k : Nat) (sites : List Site) : List Vec3 :=
  ((sites.filter fun s => decide (s.elem = e)).take k).map fun s => s.coords

/-! ## Concrete fixtures used by witnesses and counterexamples -/

/-- Concrete fixture: the identity-like cubic lattice basis. -/
def latt0 : Lattice := ⟨(1, 0, 0), (0, 1, 0), (0, 0, 1)⟩

/-- Concrete fixture: a metric that reports distance 2 between any two
points. -/
def dtwo : Vec3 → Vec3 → ℚ := fun _ _ => 2

/-- Concrete fixture: a metric that reports distance 0 between any two
points (the locator then finds nothing). -/
def dzero : Vec3 → Vec3 → ℚ := fun _ _ => 0

/-- A concrete one-site unit cell used by several witnesses. -/
def cell1 : Structure := ⟨latt0, [⟨"O", (0, 0, 0)⟩]⟩

/-- Concrete fixture for the Delta Applier claims: two `O` sites and one
`Pb` site. -/
def cell3 : Structure :=
  ⟨latt0, [⟨"O", (0, 0, 0)⟩, ⟨"Pb", (2, 3, 4)⟩, ⟨"O", (5, 6, 7)⟩]⟩

/-- Concrete fixture: an environment in which every external resource is
present (`{O: 6}` zval table, all templates and shared files available). -/
def envAll : Env :=
  { unitcell := cell1
    supercell_size := (1, 1, 1)
    d := dzero
    potcarExists := fun _ => true
    kpointsExists := true
    incarExists := fun _ => true
    zvalOf := fun _ => [("O", 6)]
    jobTemplateExists := true }

/-- Concrete fixture: the same environment except that no template folder
contains a POTCAR. -/
def envNoPotcar : Env :=
  { envAll with potcarExists := fun _ => false }

/-! ## Generic list lemmas -/

/-- Length of a `flatMap` whose blocks all have the same length. -/
theorem length_flatMap_const {α β : Type} (g : β → List α) (c : Nat) :
    ∀ l : List β, (∀ b ∈ l, (g b).length = c) →
      (l.flatMap g).length = l.length * c
  | [], _ => by simp
  | b :: t, h => by
    have ht := length_flatMap_const g c t fun x hx => h x (List.mem_cons_of_mem b hx)
    simp only [List.flatMap_cons, List.length_append, ht,
      h b (List.mem_cons_self b t), List.length_cons]
    ring

/-- Indexing into a `flatMap` whose blocks all have the same length `c`:
position `c * i + r` falls in block `i` at offset `r`. -/
theorem flatMap_getElem_block {α β : Type} (g : β → List α) (c : Nat) :
    ∀ (l : List β) (i r : Nat) (b : β), (∀ x ∈ l, (g x).length = c) →
      r < c → l[i]? = some b → (l.flatMap g)[c * i + r]? = (g b)[r]?
  | [], i, _, _, _, _, hib => by simp at hib
  | b0 :: t, 0, r, b, hc, hr, hib => by
    have hb : b = b0 := by simpa using hib.symm
    subst hb
    have hlen : (g b).length = c := hc b (List.mem_cons_self b t)
    simp only [List.flatMap_cons, Nat.mul_zero, Nat.zero_add]
    exact List.getElem?_append_left (by omega)
  | b0 :: t, i + 1, r, b, hc, hr, hib => by
    have hib' : t[i]? = some b := by simpa using hib
    have ht := flatMap_getElem_block g c t i r b
      (fun x hx => hc x (List.mem_cons_of_mem b0 hx)) hr hib'
    have hlen : (g b0).length = c := hc b0 (List.mem_cons_self b0 t)
    have harith : c * (i + 1) + r = (g b0).length + (c * i + r) := by
      rw [hlen]; ring
    simp only [List.flatMap_cons, harith]
    rw [List.getElem?_append_right (by omega)]
    simpa using ht

/-! ## Claim C6: Empty-Site Locator -/

/-- `linspace10[i]? = some (i/10)` for `i < 10`. -/
theorem linspace10_getElem (i : Nat) (hi : i < 10) :
    linspace10[i]? = some ((i : ℚ) / 10) := by
  rw [linspace10, List.getElem?_map]
  simp [List.getElem?_range, hi]

theorem linspace10_length : linspace10.length = 10 := by
  rw [linspace10, List.length_map, List.length_range]

/-- Index formula for the grid scan: candidate number `100·i + 10·j + k`
is `(i/10, j/10, k/10)` — axis 1 outermost and ascending, then axis 2,
then axis 3. -/
theorem grid_points_getElem (i j k : Nat) (hi : i < 10) (hj : j < 10)
    (hk : k < 10) :
    grid_points[100 * i + 10 * j + k]? =
      some ((i : ℚ) / 10, (j : ℚ) / 10, (k : ℚ) / 10) := by
  have hinner : ∀ x y : ℚ, ((linspace10.map fun z => (x, y, z)).length) = 10 := by
    intro x y; rw [List.length_map, linspace10_length]
  have hmid : ∀ x : ℚ,
      ((linspace10.flatMap fun y => linspace10.map fun z => (x, y, z)).length) = 100 := by
    intro x
    rw [length_flatMap_const _ 10 _ (fun y _ => hinner x y), linspace10_length]
  have h1 : grid_points[100 * i + (10 * j + k)]? =
      ((fun x => linspace10.flatMap fun y => linspace10.map fun z => (x, y, z))
        ((i : ℚ) / 10))[10 * j + k]? := by
    exact flatMap_getElem_block _ 100 linspace10 i (10 * j + k) _
      (fun x _ => hmid x) (by omega) (linspace10_getElem i hi)
  have h2 : ((linspace10.flatMap fun y => linspace10.map fun z => ((i : ℚ) / 10, y, z)))[10 * j + k]? =
      ((fun y => linspace10.map fun z => ((i : ℚ) / 10, y, z)) ((j : ℚ) / 10))[k]? := by
    exact flatMap_getElem_block _ 10 linspace10 j k _
      (fun y _ => hinner _ y) hk (linspace10_getElem j hj)
  have h3 : (linspace10.map fun z => ((i : ℚ) / 10, (j : ℚ) / 10, z))[k]? =
      some ((i : ℚ) / 10, (j : ℚ) / 10, (k : ℚ) / 10) := by
    rw [List.getElem?_map, linspace10_getElem k hk]
    rfl
  have harith : 100 * i + 10 * j + k = 100 * i + (10 * j + k) := by omega
  rw [harith, h1]
  simpa using h2.trans h3

/-- C6.  Every candidate returned by the Empty-Site Locator is at
periodic distance strictly greater than `min_distance` from every
existing site; the returned sequence is a subsequence of the fixed grid
scan `grid_points` (hence follows its order); the scan enumerates the
`10³` grid of `[0,1)³` with axis 1 outermost, then axis 2, then axis 3,
all ascending; and the result is a deterministic function of the inputs. -/
theorem C6_empty_site_locator (d : Vec3 → Vec3 → ℚ) (sites : List Site)
    (md : ℚ) :
    (∀ c ∈ find_empty_sites d sites md, ∀ s ∈ sites, md < d c s.coords)
    ∧ (find_empty_sites d sites md).Sublist grid_points
    ∧ (∀ i j k : Nat, i < 10 → j < 10 → k < 10 →
        grid_points[100 * i + 10 * j + k]? =
          some ((i : ℚ) / 10, (j : ℚ) / 10, (k : ℚ) / 10))
    ∧ (∀ d2 sites2 md2, d2 = d → sites2 = sites → md2 = md →
        find_empty_sites d2 sites2 md2 = find_empty_sites d sites md) := by
  refine ⟨?_, ?_, ?_, ?_⟩
  · intro c hc s hs
    rcases List.mem_filter.mp hc with ⟨-, hall⟩
    have := List.all_eq_true.mp hall s hs
    simpa using this
  · exact List.filter_sublist grid_points
  · exact fun i j k hi hj hk => grid_points_getElem i j k hi hj hk
  · intro d2 sites2 md2 h1 h2 h3
    rw [h1, h2, h3]

/-- Witness for C6 at a concrete input: the origin is a returned candidate
for a one-site structure under the constant-distance-2 metric with
`min_distance = 1`, and the theorem then yields the strict distance bound
at that site. -/
theorem C6_empty_site_locator_witness :
    (1 : ℚ) < dtwo (0, 0, 0) (Site.mk "O" (0, 0, 0)).coords :=
  (C6_empty_site_locator dtwo [Site.mk "O" (0, 0, 0)] 1).1 (0, 0, 0)
    (by
      apply List.mem_filter.mpr
      refine ⟨?_, by decide⟩
      have h0 : ((0 : ℚ), (0 : ℚ), (0 : ℚ)) =
          (((0 : Nat) : ℚ) / 10, ((0 : Nat) : ℚ) / 10, ((0 : Nat) : ℚ) / 10) := by
        norm_num
      rw [h0]
      have hmem : (((0 : Nat) : ℚ) / 10) ∈ linspace10 :=
        List.mem_map.mpr ⟨0, List.mem_range.mpr (by omega), rfl⟩
      exact List.mem_flatMap.mpr ⟨_, hmem,
        List.mem_flatMap.mpr ⟨_, hmem, List.mem_map.mpr ⟨_, hmem, rfl⟩⟩⟩)
    (Site.mk "O" (0, 0, 0)) (List.mem_singleton.mpr rfl)

/-! ## Claims C7 and C8: Supercell Builder -/

/-- For `0 ≤ f < 1` and `i < n`, the tiled fractional coordinate
`(f + i) / n` lies in `[0, 1)`. -/
theorem frac_shift_bound (f : ℚ) (i n : ℕ) (hf0 : 0 ≤ f) (hf1 : f < 1)
    (hin : i < n) :
    0 ≤ (f + (i : ℚ)) / (n : ℚ) ∧ (f + (i : ℚ)) / (n : ℚ) < 1 := by
  have hn0 : 0 < n := Nat.pos_of_ne_zero (by omega)
  have hn : (0 : ℚ) < (n : ℚ) := by exact_mod_cast hn0
  have hi0 : (0 : ℚ) ≤ (i : ℚ) := Nat.cast_nonneg i
  have hisucc : (i : ℚ) + 1 ≤ (n : ℚ) := by exact_mod_cast hin
  constructor
  · apply div_nonneg (by linarith) (le_of_lt hn)
  · rw [div_lt_one hn]
    linarith

/-- C7 (reason: spec-modelled, see `build_supercell_with_phonopy`).  For
positive multipliers and a unit cell whose fractional coordinates lie in
`[0,1)³`, the Supercell Builder succeeds, its output has exactly
`nx·ny·nz·N` sites, and every output fractional coordinate lies in
`[0,1)³`. -/
theorem C7_supercell_count_and_range (S : Structure) (nx ny nz : ℤ)
    (hx : 0 < nx) (hy : 0 < ny) (hz : 0 < nz)
    (hS : ∀ s ∈ S.sites, inUnitCube s.coords) :
    ∃ T, build_supercell_with_phonopy S (nx, ny, nz) = .ok T
      ∧ T.sites.length = nx.toNat * ny.toNat * nz.toNat * S.sites.length
      ∧ ∀ s ∈ T.sites, inUnitCube s.coords := by
  have hcond : ¬((nx, ny, nz).1 ≤ 0 ∨ (nx, ny, nz).2.1 ≤ 0 ∨
      (nx, ny, nz).2.2 ≤ 0) := by
    simp only [not_or, not_le]
    exact ⟨hx, hy, hz⟩
  rw [build_supercell_with_phonopy, if_neg hcond]
  refine ⟨_, rfl, ?_, ?_⟩
  · have hinner : ∀ (site : Site) (i j : ℕ),
        ((List.range nz.toNat).map fun (k : ℕ) =>
          ({ elem := site.elem,
             coords := ((site.coords.1 + (i : ℚ)) / (nx.toNat : ℚ),
                        (site.coords.2.1 + (j : ℚ)) / (ny.toNat : ℚ),
                        (site.coords.2.2 + (k : ℚ)) / (nz.toNat : ℚ)) } :
            Site)).length = nz.toNat := by
      intro site i j
      rw [List.length_map, List.length_range]
    have hmid : ∀ (site : Site) (i : ℕ),
        ((List.range ny.toNat).flatMap fun (j : ℕ) =>
          (List.range nz.toNat).map fun (k : ℕ) =>
            ({ elem := site.elem,
               coords := ((site.coords.1 + (i : ℚ)) / (nx.toNat : ℚ),
                          (site.coords.2.1 + (j : ℚ)) / (ny.toNat : ℚ),
                          (site.coords.2.2 + (k : ℚ)) / (nz.toNat : ℚ)) } :
              Site)).length = ny.toNat * nz.toNat := by
      intro site i
      rw [length_flatMap_const _ nz.toNat _ fun j _ => hinner site i j,
        List.length_range]
    have houter : ∀ site ∈ S.sites,
        ((List.range nx.toNat).flatMap fun (i : ℕ) =>
          (List.range ny.toNat).flatMap fun (j : ℕ) =>
            (List.range nz.toNat).map fun (k : ℕ) =>
              ({ elem := site.elem,
                 coords := ((site.coords.1 + (i : ℚ)) / (nx.toNat : ℚ),
                            (site.coords.2.1 + (j : ℚ)) / (ny.toNat : ℚ),
                            (site.coords.2.2 + (k : ℚ)) / (nz.toNat : ℚ)) } :
                Site)).length = nx.toNat * (ny.toNat * nz.toNat) := by
      intro site _
      rw [length_flatMap_const _ (ny.toNat * nz.toNat) _ fun i _ =>
        hmid site i, List.length_range]
    rw [length_flatMap_const _ (nx.toNat * (ny.toNat * nz.toNat)) _ houter]
    ring
  · intro s hs
    simp only [List.mem_flatMap, List.mem_map, List.mem_range] at hs
    obtain ⟨site, hsite, i, hi, j, hj, k, hk, rfl⟩ := hs
    obtain ⟨h1, h2, h3, h4, h5, h6⟩ := hS site hsite
    obtain ⟨hx0, hx1⟩ := frac_shift_bound site.coords.1 i nx.toNat h1 h2 hi
    obtain ⟨hy0, hy1⟩ := frac_shift_bound site.coords.2.1 j ny.toNat h3 h4 hj
    obtain ⟨hz0, hz1⟩ := frac_shift_bound site.coords.2.2 k nz.toNat h5 h6 hk
    exact ⟨hx0, hx1, hy0, hy1, hz0, hz1⟩

/-- Witness for C7 at the concrete unit cell `cell1` and multiplier
`(2,1,1)`. -/
theorem C7_supercell_count_and_range_witness :
    ∃ T, build_supercell_with_phonopy cell1 (2, 1, 1) = .ok T
      ∧ T.sites.length =
          (2 : ℤ).toNat * (1 : ℤ).toNat * (1 : ℤ).toNat * cell1.sites.length
      ∧ ∀ s ∈ T.sites, inUnitCube s.coords :=
  C7_supercell_count_and_range cell1 2 1 1 (by decide) (by decide)
    (by decide) (by decide)

/-- C8 (reason: spec-modelled, see `build_supercell_with_phonopy`).  A
multiplier triple with any non-positive component makes the Supercell
Builder fail with `InvalidMultiplierError` instead of producing a
structure. -/
theorem C8_invalid_multiplier (S : Structure) (nx ny nz : ℤ)
    (h : nx ≤ 0 ∨ ny ≤ 0 ∨ nz ≤ 0) :
    build_supercell_with_phonopy S (nx, ny, nz) =
      .error .invalidMultiplier := by
  rw [build_supercell_with_phonopy, if_pos h]

/-- Witness for C8 at the concrete multiplier `(0,1,1)`. -/
theorem C8_invalid_multiplier_witness :
    build_supercell_with_phonopy cell1 (0, 1, 1) =
      .error .invalidMultiplier :=
  C8_invalid_multiplier cell1 0 1 1 (Or.inl (by decide))

/-! ## Removal-phase structure lemmas (for claims C2, C3, C4)

The removal loop visits the selected indices in descending order, so each
`eraseIdx` leaves all smaller indices untouched.  The lemmas below recast
the index-based fold `removeCore` as the structural recursion
`removeFirst`: removing the first `k` sites of element `e` and recording
their coordinates in reverse (descending-index) order. -/

/-- Folding the removal step over indices shifted by one, on a list with
head `s`, keeps `s` and acts on the tail with the unshifted indices. -/
theorem foldRemove_shift (s : Site) :
    ∀ (js : List Nat) (sites : List Site) (pool : List Vec3),
      (js.map (· + 1)).foldl (fun st i => removeRecord st.1 i st.2)
          (s :: sites, pool) =
        (s :: (js.foldl (fun st i => removeRecord st.1 i st.2)
            (sites, pool)).1,
          (js.foldl (fun st i => removeRecord st.1 i st.2) (sites, pool)).2)
  | [], sites, pool => by simp
  | j :: rest, sites, pool => by
    have hstep : removeRecord (s :: sites) (j + 1) pool =
        (s :: (removeRecord sites j pool).1, (removeRecord sites j pool).2) := by
      unfold removeRecord
      cases h : sites[j]? <;> simp [h]
    simp only [List.map_cons, List.foldl_cons, hstep]
    exact foldRemove_shift s rest _ _

/-- Removing zero sites is the identity. -/
theorem removeCore_zero (e : Elem) (sites : List Site) (pool : List Vec3) :
    removeCore e 0 sites pool = (sites, pool) := rfl

/-- Recurrence of `removeCore` when the head site matches `e`: the tail is
processed first (its selected indices are all larger, hence visited
earlier in the descending loop), and the head's coordinates are recorded
last. -/
theorem removeCore_cons_eq (e : Elem) (s : Site) (h : s.elem = e)
    (k : Nat) (rest : List Site) (pool : List Vec3) :
    removeCore e (k + 1) (s :: rest) pool =
      ((removeCore e k rest pool).1,
        (removeCore e k rest pool).2 ++ [s.coords]) := by
  unfold removeCore
  have hidx : elemIndices e (s :: rest) =
      0 :: (elemIndices e rest).map (· + 1) := by
    rw [elemIndices, if_pos h]
  rw [hidx, List.take_succ_cons, ← List.map_take, List.reverse_cons,
    ← List.map_reverse, List.foldl_append,
    foldRemove_shift s ((elemIndices e rest).take k).reverse rest pool]
  simp [removeRecord]

/-- Recurrence of `removeCore` when the head site does not match `e`. -/
theorem removeCore_cons_ne (e : Elem) (s : Site) (h : ¬s.elem = e)
    (k : Nat) (rest : List Site) (pool : List Vec3) :
    removeCore e k (s :: rest) pool =
      (s :: (removeCore e k rest pool).1, (removeCore e k rest pool).2) := by
  unfold removeCore
  have hidx : elemIndices e (s :: rest) = (elemIndices e rest).map (· + 1) := by
    rw [elemIndices, if_neg h]
  rw [hidx, ← List.map_take, ← List.map_reverse,
    foldRemove_shift s ((elemIndices e rest).take k).reverse rest pool]

/-- `elemIndices` enumerates exactly the sites of element `e`. -/
theorem elemIndices_length (e : Elem) :
    ∀ sites : List Site, (elemIndices e sites).length = countElem e sites
  | [] => rfl
  | s :: rest => by
    by_cases h : s.elem = e
    · rw [elemIndices, if_pos h, countElem, List.filter_cons_of_pos (by simpa),
        List.length_cons, List.length_cons, List.length_map,
        elemIndices_length e rest, countElem]
    · rw [elemIndices, if_neg h, countElem, List.filter_cons_of_neg (by simpa),
        List.length_map, elemIndices_length e rest, countElem]

/-- Characterization of the removal loop: for a sufficient supply of `e`
sites it removes exactly the first `k` of them and appends their
coordinates to the pool in reverse (removal) order. -/
theorem removeCore_eq (e : Elem) :
    ∀ (sites : List Site) (k : Nat) (pool : List Vec3),
      k ≤ countElem e sites →
      removeCore e k sites pool =
        (removeFirst e k sites, pool ++ (vacatedCoords e k sites).reverse)
  | sites, 0, pool, _ => by
    rw [removeCore_zero, removeFirst]
    simp [vacatedCoords]
  | [], k + 1, pool, hk => by
    rw [countElem] at hk
    simp at hk
  | s :: rest, k + 1, pool, hk => by
    by_cases h : s.elem = e
    · have hk' : k ≤ countElem e rest := by
        rw [countElem] at hk ⊢
        rw [List.filter_cons_of_pos (by simpa)] at hk
        simpa using Nat.le_of_succ_le_succ hk
      rw [removeCore_cons_eq e s h k rest pool, removeCore_eq e rest k pool hk',
        removeFirst, if_pos h]
      have hvac : vacatedCoords e (k + 1) (s :: rest) =
          s.coords :: vacatedCoords e k rest := by
        rw [vacatedCoords, vacatedCoords, List.filter_cons_of_pos (by simpa),
          List.take_succ_cons, List.map_cons]
      rw [hvac, List.reverse_cons, ← List.append_assoc]
    · have hk' : k + 1 ≤ countElem e rest := by
        rw [countElem] at hk ⊢
        rwa [List.filter_cons_of_neg (by simpa)] at hk
      rw [removeCore_cons_ne e s h (k + 1) rest pool,
        removeCore_eq e rest (k + 1) pool hk', removeFirst, if_neg h]
      have hvac : vacatedCoords e (k + 1) (s :: rest) =
          vacatedCoords e (k + 1) rest := by
        rw [vacatedCoords, vacatedCoords, List.filter_cons_of_neg (by simpa)]
      rw [hvac]

/-- Removing `k` sites (with sufficient supply) shortens the list by `k`. -/
theorem removeFirst_length (e : Elem) :
    ∀ (sites : List Site) (k : Nat), k ≤ countElem e sites →
      (removeFirst e k sites).length = sites.length - k
  | sites, 0, _ => by rw [removeFirst]; omega
  | [], k + 1, hk => by
    rw [countElem] at hk
    simp at hk
  | s :: rest, k + 1, hk => by
    by_cases h : s.elem = e
    · have hk' : k ≤ countElem e rest := by
        rw [countElem] at hk ⊢
        rw [List.filter_cons_of_pos (by simpa)] at hk
        simpa using Nat.le_of_succ_le_succ hk
      have hlen : k ≤ rest.length :=
        le_trans hk' (List.length_filter_le _ rest)
      rw [removeFirst, if_pos h, removeFirst_length e rest k hk']
      simp only [List.length_cons]
      omega
    · have hk' : k + 1 ≤ countElem e rest := by
        rw [countElem] at hk ⊢
        rwa [List.filter_cons_of_neg (by simpa)] at hk
      have hlen : k + 1 ≤ rest.length :=
        le_trans hk' (List.length_filter_le _ rest)
      rw [removeFirst, if_neg h, List.length_cons,
        removeFirst_length e rest (k + 1) hk', List.length_cons]
      omega

/-- `removeFirst e` only removes sites of element `e`: the count of any
other element is preserved. -/
theorem removeFirst_countElem (e f : Elem) (hne : f ≠ e) :
    ∀ (sites : List Site) (k : Nat),
      countElem f (removeFirst e k sites) = countElem f sites
  | _, 0 => by rw [removeFirst]
  | [], _ + 1 => by rw [removeFirst]
  | s :: rest, k + 1 => by
    have ih := removeFirst_countElem e f hne rest
    by_cases h : s.elem = e
    · have hf : ¬s.elem = f := by rw [h]; exact fun hc => hne hc.symm
      rw [removeFirst, if_pos h, ih k, countElem, countElem,
        List.filter_cons_of_neg (by simpa)]
    · rw [removeFirst, if_neg h]
      by_cases hf : s.elem = f
      · rw [countElem, countElem, List.filter_cons_of_pos (by simpa),
          List.filter_cons_of_pos (by simpa), List.length_cons,
          List.length_cons]
        have hcount := ih (k + 1)
        rw [countElem, countElem] at hcount
        omega
      · rw [countElem, countElem, List.filter_cons_of_neg (by simpa),
          List.filter_cons_of_neg (by simpa)]
        have hcount := ih (k + 1)
        rw [countElem, countElem] at hcount
        omega

/-- With enough atoms, the per-element removal succeeds and is the
`removeFirst` recursion. -/
theorem removeForElem_ok (e : Elem) (k : Nat) (sites : List Site)
    (pool : List Vec3) (hk : k ≤ countElem e sites) :
    removeForElem e k sites pool =
      .ok (removeFirst e k sites, pool ++ (vacatedCoords e k sites).reverse) := by
  rw [removeForElem, if_neg (by rw [elemIndices_length]; omega),
    removeCore_eq e sites k pool hk]

/-- With too few atoms, the per-element removal fails, naming the
element. -/
theorem removeForElem_error (e : Elem) (k : Nat) (sites : List Site)
    (pool : List Vec3) (hk : countElem e sites < k) :
    removeForElem e k sites pool = .error (.insufficientAtoms e) := by
  rw [removeForElem, if_pos (by rw [elemIndices_length]; omega)]

/-- The vacancy pool created by a sufficient removal has exactly `k`
coordinates. -/
theorem vacatedCoords_length (e : Elem) (k : Nat) (sites : List Site)
    (hk : k ≤ countElem e sites) : (vacatedCoords e k sites).length = k := by
  rw [vacatedCoords, List.length_map, List.length_take]
  rw [countElem] at hk
  omega

/-! ## Claims C2, C3, C4: Defect Delta Applier -/

/-- Running the removal phase on the two-entry delta
`{E: -k, F: +k}`: only the `E` entry removes, producing the first-`k`
removal and the reversed vacancy pool. -/
theorem removal_phase_pair (E F : Elem) (k : Nat) (hk : 0 < k)
    (sites : List Site) (hcount : k ≤ countElem E sites) :
    removal_phase [(E, -(k : ℤ)), (F, (k : ℤ))] sites [] =
      .ok (removeFirst E k sites, (vacatedCoords E k sites).reverse) := by
  have hneg : -(k : ℤ) < 0 := by omega
  have hpos : ¬((k : ℤ) < 0) := by omega
  have hnatabs : (-(k : ℤ)).natAbs = k := by simp
  simp only [removal_phase, if_pos hneg, hnatabs,
    removeForElem_ok E k sites [] hcount, if_neg hpos, List.nil_append]

/-- Running the addition phase on the two-entry delta `{E: -k, F: +k}`
with a pool of exactly `k` vacancies: the whole pool is reused for the
`k` added `F` atoms and `find_empty_sites` is never invoked. -/
theorem addition_phase_pair (d : Vec3 → Vec3 → ℚ) (E F : Elem) (k : Nat)
    (hk : 0 < k) (sites : List Site) (pool : List Vec3)
    (hpool : pool.length = k) :
    addition_phase d [(E, -(k : ℤ)), (F, (k : ℤ))] sites pool =
      .ok (sites ++ pool.map fun c => { elem := F, coords := c }, 0) := by
  have hneg : ¬(0 < -(k : ℤ)) := by omega
  have hpos : (0 : ℤ) < (k : ℤ) := by omega
  have htonat : ((k : ℤ)).toNat = k := by omega
  have htake : pool.take k = pool := List.take_of_length_le (by omega)
  have hlenlt : ¬(pool.length < k) := by omega
  simp only [addition_phase, if_neg hneg, if_pos hpos, htonat, htake,
    if_neg hlenlt]

/-- C3.  Removing `k` atoms of `E` and adding `k` atoms of `F` in the
same call preserves the total site count; the `k` added sites sit exactly
at the `k` vacated coordinates (`vacatedCoords E k S.sites`, consumed in
recorded order, which is descending removal-index order); and the
Empty-Site Locator is never invoked (invocation count 0).  The delta is
a Python `dict`, so the two keys are distinct (`E ≠ F`); in particular a
same-element swap `F = E` is inexpressible as a separate entry (its net
delta is 0), and the vacated-coordinate conclusion here holds for every
added element `F`, which subsumes the claim's `F = E` clause. -/
theorem C3_remove_add_balance (d : Vec3 → Vec3 → ℚ) (S : Structure)
    (E F : Elem) (k : Nat) (hk : 0 < k) (_hEF : E ≠ F)
    (hcount : k ≤ countElem E S.sites) :
    ∃ kept : List Site,
      apply_defect d S [(E, -(k : ℤ)), (F, (k : ℤ))] =
        .ok ({ S with
          sites := kept ++
            (vacatedCoords E k S.sites).reverse.map
              fun c => { elem := F, coords := c } }, 0)
      ∧ kept.length + k = S.sites.length := by
  refine ⟨removeFirst E k S.sites, ?_, ?_⟩
  · have hpool : ((vacatedCoords E k S.sites).reverse).length = k := by
      rw [List.length_reverse, vacatedCoords_length E k S.sites hcount]
    rw [apply_defect, removal_phase_pair E F k hk S.sites hcount]
    simp only
    rw [addition_phase_pair d E F k hk (removeFirst E k S.sites)
      ((vacatedCoords E k S.sites).reverse) hpool]
  · have hle : countElem E S.sites ≤ S.sites.length :=
      List.length_filter_le _ S.sites
    rw [removeFirst_length E S.sites k hcount]
    omega

/-- Witness for C3 at a concrete input: `{O: -2, La: +2}` on `cell3`. -/
theorem C3_remove_add_balance_witness :
    ∃ kept : List Site,
      apply_defect dzero cell3 [("O", -(2 : ℤ)), ("La", (2 : ℤ))] =
        .ok ({ cell3 with
          sites := kept ++
            (vacatedCoords "O" 2 cell3.sites).reverse.map
              fun c => { elem := "La", coords := c } }, 0)
      ∧ kept.length + 2 = cell3.sites.length :=
  C3_remove_add_balance dzero cell3 "O" "La" 2 (by decide) (by decide)
    (by decide)

/-- If some entry of the delta over-requests a removal, the removal phase
fails with `InsufficientAtomsError` naming an over-requested element
(under the Python-dict invariant that delta keys are distinct). -/
theorem removal_phase_error_of_insufficient :
    ∀ (delta : Delta) (sites : List Site) (pool : List Vec3),
      (delta.map Prod.fst).Nodup →
      (∃ p ∈ delta, p.2 < 0 ∧ countElem p.1 sites < p.2.natAbs) →
      ∃ E2 ch2, (E2, ch2) ∈ delta ∧ ch2 < 0 ∧
        countElem E2 sites < ch2.natAbs ∧
        removal_phase delta sites pool = .error (.insufficientAtoms E2)
  | [], sites, pool, _, hwit => by
    obtain ⟨p, hp, -⟩ := hwit
    simp at hp
  | (e0, ch0) :: rest, sites, pool, hnodup, hwit => by
    have hnodup' : (rest.map Prod.fst).Nodup := (List.nodup_cons.mp hnodup).2
    have hnotmem : e0 ∉ rest.map Prod.fst := (List.nodup_cons.mp hnodup).1
    by_cases hneg : ch0 < 0
    · by_cases hshort : countElem e0 sites < ch0.natAbs
      · refine ⟨e0, ch0, List.mem_cons_self _ _, hneg, hshort, ?_⟩
        simp only [removal_phase, if_pos hneg,
          removeForElem_error e0 ch0.natAbs sites pool hshort]
      · have hcount : ch0.natAbs ≤ countElem e0 sites := by omega
        obtain ⟨p, hp, hpneg, hpshort⟩ := hwit
        have hprest : p ∈ rest := by
          rcases List.mem_cons.mp hp with hhead | htail
          · exfalso
            rw [hhead] at hpneg hpshort
            exact hshort hpshort
          · exact htail
        have hpne : p.1 ≠ e0 := by
          intro hc
          exact hnotmem (hc ▸ List.mem_map_of_mem Prod.fst hprest)
        have hpres : countElem p.1 (removeFirst e0 ch0.natAbs sites) =
            countElem p.1 sites :=
          removeFirst_countElem e0 p.1 hpne sites ch0.natAbs
        obtain ⟨E2, ch2, hmem2, hneg2, hshort2, herr2⟩ :=
          removal_phase_error_of_insufficient rest
            (removeFirst e0 ch0.natAbs sites)
            (pool ++ (vacatedCoords e0 ch0.natAbs sites).reverse) hnodup'
            ⟨p, hprest, hpneg, by rw [hpres]; exact hpshort⟩
        have hE2ne : E2 ≠ e0 := by
          intro hc
          exact hnotmem (hc ▸ List.mem_map_of_mem Prod.fst hmem2)
        refine ⟨E2, ch2, List.mem_cons_of_mem _ hmem2, hneg2, ?_, ?_⟩
        · rw [← removeFirst_countElem e0 E2 hE2ne sites ch0.natAbs]
          exact hshort2
        · simp only [removal_phase, if_pos hneg,
            removeForElem_ok e0 ch0.natAbs sites pool hcount]
          exact herr2
    · obtain ⟨p, hp, hpneg, hpshort⟩ := hwit
      have hprest : p ∈ rest := by
        rcases List.mem_cons.mp hp with hhead | htail
        · exfalso
          rw [hhead] at hpneg
          exact hneg hpneg
        · exact htail
      obtain ⟨E2, ch2, hmem2, hneg2, hshort2, herr2⟩ :=
        removal_phase_error_of_insufficient rest sites pool hnodup'
          ⟨p, hprest, hpneg, hpshort⟩
      refine ⟨E2, ch2, List.mem_cons_of_mem _ hmem2, hneg2, hshort2, ?_⟩
      simp only [removal_phase, if_neg hneg]
      exact herr2

/-- C4.  If the delta over-requests removal of some element, then
`apply_defect` fails with `InsufficientAtomsError` naming an element whose
removal was over-requested (if exactly one element is over-requested, that
one), and since the embedded `apply_defect` is a pure function operating
on the copy `mod_structure = structure.copy()`, the input structure is
observably unchanged by the failed call. -/
theorem C4_insufficient_atoms (d : Vec3 → Vec3 → ℚ) (S : Structure)
    (delta : Delta) (E : Elem) (ch : ℤ)
    (hnodup : (delta.map Prod.fst).Nodup) (hmem : (E, ch) ∈ delta)
    (hneg : ch < 0) (hshort : countElem E S.sites < ch.natAbs) :
    ∃ E2 ch2, (E2, ch2) ∈ delta ∧ ch2 < 0 ∧
      countElem E2 S.sites < ch2.natAbs ∧
      apply_defect d S delta = .error (.insufficientAtoms E2) := by
  obtain ⟨E2, ch2, hmem2, hneg2, hshort2, herr2⟩ :=
    removal_phase_error_of_insufficient delta S.sites [] hnodup
      ⟨(E, ch), hmem, hneg, hshort⟩
  refine ⟨E2, ch2, hmem2, hneg2, hshort2, ?_⟩
  rw [apply_defect, herr2]

/-- Witness for C4 at a concrete input: removing two `O` atoms from the
one-`O`-site structure `cell1`. -/
theorem C4_insufficient_atoms_witness :
    ∃ E2 ch2, (E2, ch2) ∈ ([("O", -2)] : Delta) ∧ ch2 < 0 ∧
      countElem E2 cell1.sites < ch2.natAbs ∧
      apply_defect dzero cell1 [("O", -2)] =
        .error (.insufficientAtoms E2) :=
  C4_insufficient_atoms dzero cell1 [("O", -2)] "O" (-2) (by decide)
    (by decide) (by decide) (by decide)

/-- C2 (code bug).  The addition phase never consumes the vacancy pool:
each added element re-reads `removed_coords` from its start, so one
recorded vacancy is reused by several added elements.  Concretely, for
delta `{O: -1, La: +1, Y: +1}` on a structure with one `O` site at the
origin, the source places **both** the added `La` and the added `Y` at the
origin — the single recorded vacancy is claimed twice, contradicting the
claim (and spec §4.3) that a vacancy claimed by an earlier element is no
longer available to later elements of the same call. -/
theorem C2_pool_not_consumed :
    apply_defect dzero ⟨latt0, [⟨"O", (0, 0, 0)⟩, ⟨"Pb", (2, 3, 4)⟩]⟩
        [("O", -1), ("La", 1), ("Y", 1)] =
      .ok (⟨latt0, [⟨"Pb", (2, 3, 4)⟩, ⟨"La", (0, 0, 0)⟩,
        ⟨"Y", (0, 0, 0)⟩]⟩, 0) := by
  decide

/-! ## Claim C5: Valence/Charge Calculator -/

/-- When the zval table covers every element of the site list, the
accumulation loop returns the initial total plus the (unrounded) sum of
per-site table values. -/
theorem valenceLoop_ok (zval : ZvalTable) :
    ∀ (sites : List Site) (acc : ℚ),
      (∀ s ∈ sites, (zval.lookup s.elem).isSome) →
      valenceLoop zval sites acc =
        .ok (acc + (sites.map fun s => (zval.lookup s.elem).getD 0).sum)
  | [], acc, _ => by
    simp [valenceLoop]
  | s :: rest, acc, hcov => by
    obtain ⟨z, hz⟩ := Option.isSome_iff_exists.mp
      (hcov s (List.mem_cons_self s rest))
    have hrest := valenceLoop_ok zval rest (acc + z)
      fun x hx => hcov x (List.mem_cons_of_mem s hx)
    have hstep : valenceLoop zval (s :: rest) acc =
        valenceLoop zval rest (acc + z) := by
      rw [valenceLoop, hz]
    rw [hstep, hrest, List.map_cons, List.sum_cons, hz]
    simp only [Option.getD_some]
    rw [add_assoc]

/-- C5.  `total_electrons` is invariant under any permutation of the
structure's sites; subtracting the zero-charge result recovers the net
charge exactly; and the per-site valence values are summed unrounded, the
sum being rounded exactly once (`pyRound`) before the net charge is
added. -/
theorem C5_total_electrons_properties (zval : ZvalTable) (S S2 : Structure)
    (c : ℤ) (hperm : S.sites.Perm S2.sites)
    (hcov : ∀ s ∈ S.sites, (zval.lookup s.elem).isSome) :
    ∃ q : ℚ,
      q = (S.sites.map fun s => (zval.lookup s.elem).getD 0).sum
      ∧ get_valence_electrons zval S = .ok q
      ∧ get_valence_electrons zval S2 = .ok q
      ∧ total_electrons zval S c = .ok (pyRound q + c)
      ∧ total_electrons zval S2 c = .ok (pyRound q + c)
      ∧ total_electrons zval S 0 = .ok (pyRound q)
      ∧ (pyRound q + c) - pyRound q = c := by
  have hcov2 : ∀ s ∈ S2.sites, (zval.lookup s.elem).isSome :=
    fun s hs => hcov s (hperm.mem_iff.mpr hs)
  have hsum : (S2.sites.map fun s => (zval.lookup s.elem).getD 0).sum =
      (S.sites.map fun s => (zval.lookup s.elem).getD 0).sum :=
    ((hperm.map fun s => (zval.lookup s.elem).getD 0).sum_eq).symm
  have h1 : get_valence_electrons zval S =
      .ok ((S.sites.map fun s => (zval.lookup s.elem).getD 0).sum) := by
    rw [get_valence_electrons, valenceLoop_ok zval S.sites 0 hcov, zero_add]
  have h2 : get_valence_electrons zval S2 =
      .ok ((S.sites.map fun s => (zval.lookup s.elem).getD 0).sum) := by
    rw [get_valence_electrons, valenceLoop_ok zval S2.sites 0 hcov2,
      zero_add, hsum]
  refine ⟨_, rfl, h1, h2, ?_, ?_, ?_, by omega⟩
  · rw [total_electrons, h1]
  · rw [total_electrons, h2]
  · have hzero : total_electrons zval S 0 =
        .ok (pyRound ((S.sites.map fun s => (zval.lookup s.elem).getD 0).sum) + 0) := by
      rw [total_electrons, h1]
    rw [hzero, add_zero]

/-- Witness for C5 at a concrete input: the one-site structure `cell1`,
the table `{O: 6}`, and net charge `-1`. -/
theorem C5_total_electrons_properties_witness :
    ∃ q : ℚ,
      q = (cell1.sites.map fun s =>
        (([("O", 6)] : ZvalTable).lookup s.elem).getD 0).sum
      ∧ get_valence_electrons [("O", 6)] cell1 = .ok q
      ∧ get_valence_electrons [("O", 6)] cell1 = .ok q
      ∧ total_electrons [("O", 6)] cell1 (-1) = .ok (pyRound q + (-1))
      ∧ total_electrons [("O", 6)] cell1 (-1) = .ok (pyRound q + (-1))
      ∧ total_electrons [("O", 6)] cell1 0 = .ok (pyRound q)
      ∧ (pyRound q + (-1)) - pyRound q = -1 :=
  C5_total_electrons_properties [("O", 6)] cell1 cell1 (-1)
    (List.Perm.refl _) (by decide)

/-! ## Claims C1, C9, C10: Orchestrator -/

/-- Exhaustive outcome shape of one defect's processing: each failure
origin determines exactly which artifacts have already been written when
the exception escapes. -/
theorem process_spec_shape (env : Env) (spec : DefectSpec) :
    (∃ e, process_spec env spec = ([], .error (.supercellFailed e)))
    ∨ (∃ e, process_spec env spec = ([], .error (.defectFailed e)))
    ∨ process_spec env spec = ([.poscar], .error .deltaKeyMissing)
    ∨ (∃ t, process_spec env spec = ([.poscar], .error (.potcarMissing t)))
    ∨ process_spec env spec = ([.poscar], .error .kpointsMissing)
    ∨ (∃ t, process_spec env spec = ([.poscar], .error (.incarMissing t)))
    ∨ (∃ e, process_spec env spec =
        ([.poscar, .incar, .potcar, .kpoints], .error (.valenceFailed e)))
    ∨ process_spec env spec =
        ([.poscar, .incar, .potcar, .kpoints, .incar],
          .error .jobTemplateMissing)
    ∨ (∃ n, process_spec env spec = (all_artifacts, .ok n)) := by
  cases h1 : build_supercell_with_phonopy env.unitcell env.supercell_size with
  | error e1 =>
    exact Or.inl ⟨e1, by simp only [process_spec, h1]⟩
  | ok sc =>
    cases h2 : apply_defect env.d sc (spec.delta.getD []) with
    | error e2 =>
      exact Or.inr (Or.inl ⟨e2, by simp only [process_spec, h1, h2]⟩)
    | ok p =>
      obtain ⟨st, nloc⟩ := p
      cases h3 : spec.delta with
      | none =>
        rw [h3] at h2
        refine Or.inr (Or.inr (Or.inl ?_))
        simp only [process_spec, h1, h3, h2]
      | some dl =>
        rw [h3] at h2
        by_cases h4 : env.potcarExists (get_template_folder dl) = false
        · refine Or.inr (Or.inr (Or.inr (Or.inl ⟨get_template_folder dl, ?_⟩)))
          simp only [process_spec, h1, h3, h2, if_pos h4]
        · by_cases h5 : env.kpointsExists = false
          · refine Or.inr (Or.inr (Or.inr (Or.inr (Or.inl ?_))))
            simp only [process_spec, h1, h3, h2, if_neg h4, if_pos h5]
          · by_cases h6 : env.incarExists (get_template_folder dl) = false
            · refine Or.inr (Or.inr (Or.inr (Or.inr (Or.inr (Or.inl
                ⟨get_template_folder dl, ?_⟩)))))
              simp only [process_spec, h1, h3, h2, if_neg h4, if_neg h5,
                if_pos h6]
            · cases h7 : total_electrons (env.zvalOf (get_template_folder dl))
                  (get_sorted_structure st) (spec.charge.getD 0) with
              | error e7 =>
                refine Or.inr (Or.inr (Or.inr (Or.inr (Or.inr (Or.inr
                  (Or.inl ⟨e7, ?_⟩))))))
                simp only [process_spec, h1, h3, h2, if_neg h4, if_neg h5,
                  if_neg h6, h7]
                rfl
              | ok n =>
                by_cases h8 : env.jobTemplateExists = false
                · refine Or.inr (Or.inr (Or.inr (Or.inr (Or.inr (Or.inr
                    (Or.inr (Or.inl ?_)))))))
                  simp only [process_spec, h1, h3, h2, if_neg h4, if_neg h5,
                    if_neg h6, h7, if_pos h8]
                  rfl
                · refine Or.inr (Or.inr (Or.inr (Or.inr (Or.inr (Or.inr
                    (Or.inr (Or.inr ⟨n, ?_⟩)))))))
                  simp only [process_spec, h1, h3, h2, if_neg h4, if_neg h5,
                    if_neg h6, h7, if_neg h8]
                  rfl

/-- C1 (amended).  If the supercell build or the delta application fails,
no file has been written for that defect; and when every phase succeeds,
every artifact is written (the control file twice: the verbatim copy and
the NELECT rewrite).  The original all-or-nothing claim fails for the
later phases — see `C1_counterexample`: a failure after the structure
file is serialized (missing delta key, missing template resources,
valence lookup, job-template read) leaves the already-written artifacts
behind. -/
theorem C1_amended_atomicity (env : Env) (spec : DefectSpec) :
    (((∃ e, (process_spec env spec).2 = .error (.supercellFailed e))
        ∨ (∃ e, (process_spec env spec).2 = .error (.defectFailed e))) →
      (process_spec env spec).1 = [])
    ∧ (∀ n : ℤ, (process_spec env spec).2 = .ok n →
        (process_spec env spec).1 = all_artifacts) := by
  rcases process_spec_shape env spec with ⟨e, h⟩ | ⟨e, h⟩ | h | ⟨t, h⟩ | h |
    ⟨t, h⟩ | ⟨e, h⟩ | h | ⟨n, h⟩ <;> rw [h]
  · exact ⟨fun _ => rfl, fun m hm => by simp at hm⟩
  · exact ⟨fun _ => rfl, fun m hm => by simp at hm⟩
  · exact ⟨fun hd => by rcases hd with ⟨x, hx⟩ | ⟨x, hx⟩ <;> simp at hx,
      fun m hm => by simp at hm⟩
  · exact ⟨fun hd => by rcases hd with ⟨x, hx⟩ | ⟨x, hx⟩ <;> simp at hx,
      fun m hm => by simp at hm⟩
  · exact ⟨fun hd => by rcases hd with ⟨x, hx⟩ | ⟨x, hx⟩ <;> simp at hx,
      fun m hm => by simp at hm⟩
  · exact ⟨fun hd => by rcases hd with ⟨x, hx⟩ | ⟨x, hx⟩ <;> simp at hx,
      fun m hm => by simp at hm⟩
  · exact ⟨fun hd => by rcases hd with ⟨x, hx⟩ | ⟨x, hx⟩ <;> simp at hx,
      fun m hm => by simp at hm⟩
  · exact ⟨fun hd => by rcases hd with ⟨x, hx⟩ | ⟨x, hx⟩ <;> simp at hx,
      fun m hm => by simp at hm⟩
  · exact ⟨fun hd => by rcases hd with ⟨x, hx⟩ | ⟨x, hx⟩ <;> simp at hx,
      fun m hm => rfl⟩

/-- Witness for C1 (amended) at a concrete input: a defect whose delta
application fails (removing two `O` atoms from a one-`O` supercell)
writes nothing. -/
theorem C1_amended_atomicity_witness :
    (process_spec envAll ⟨some [("O", -2)], none⟩).1 = [] :=
  (C1_amended_atomicity envAll ⟨some [("O", -2)], none⟩).1
    (Or.inr ⟨.insufficientAtoms "O", by decide⟩)

/-- C1 (counterexample to the claim as stated).  With the template POTCAR
absent, processing fails (a phase of the build fails: the missing
external template), yet the structure file has already been written: the
output folder holds some but not all artifacts, so output is not
all-or-nothing. -/
theorem C1_counterexample :
    process_spec envNoPotcar ⟨some [], none⟩ =
      ([Artifact.poscar], .error (.potcarMissing "Pb_W_O"))
    ∧ ([Artifact.poscar] : List Artifact) ≠ []
    ∧ ([Artifact.poscar] : List Artifact) ≠ all_artifacts := by
  refine ⟨by decide, by decide, by decide⟩

/-- C9.  A failure while processing one spec is caught and reported with
that defect's name, and the remaining specs are processed exactly as they
would have been on their own: the main loop maps each entry to its own
report, so one failure never aborts the batch (and every spec, skipped or
not, produces exactly one report line). -/
theorem C9_failure_isolation (env : Env)
    (pre post : List (String × DefectSpec)) (name : String)
    (spec : DefectSpec) (w : List Artifact) (err : ProcError)
    (hname : ¬startsWithZ name)
    (hfail : process_spec env spec = (w, .error err)) :
    main_loop env (pre ++ (name, spec) :: post) =
      main_loop env pre ++ (Report.failed name err, w) :: main_loop env post
    ∧ ∀ specs : List (String × DefectSpec),
        (main_loop env specs).length = specs.length := by
  constructor
  · have hentry : process_entry env (name, spec) = (.failed name err, w) := by
      rw [process_entry, if_neg (by simpa using hname), hfail]
    rw [main_loop, List.map_append, List.map_cons, hentry, main_loop,
      main_loop]
  · intro specs
    rw [main_loop, List.length_map]

/-- Witness for C9 at a concrete batch: a skipped reserved name, then a
defect failing on the missing template POTCAR, then a later defect that
is still processed. -/
theorem C9_failure_isolation_witness :
    main_loop envNoPotcar
        ([("zskip", ⟨some [], none⟩)] ++
          ("d1", (⟨some [], none⟩ : DefectSpec)) ::
            [("d2", ⟨some [], none⟩)]) =
      main_loop envNoPotcar [("zskip", ⟨some [], none⟩)] ++
        (Report.failed "d1" (.potcarMissing "Pb_W_O"), [Artifact.poscar]) ::
          main_loop envNoPotcar [("d2", ⟨some [], none⟩)]
    ∧ ∀ specs : List (String × DefectSpec),
        (main_loop envNoPotcar specs).length = specs.length :=
  C9_failure_isolation envNoPotcar [("zskip", ⟨some [], none⟩)]
    [("d2", ⟨some [], none⟩)] "d1" ⟨some [], none⟩ [Artifact.poscar]
    (.potcarMissing "Pb_W_O") (by decide) (by decide)

/-- C10 (code bug).  First conjunct: a spec that omits `charge` gets net
charge 0, so the NELECT written is exactly `round(valence sum)` (here
`pyRound 6 + 0 = 6`) and processing succeeds in full.  Second conjunct: a
spec that omits `delta` is **not** simply treated as an empty delta —
line 153 defaults it (`spec.get("delta", {})`), so the structure is built
unchanged and POSCAR is written, but line 158 then reads `spec["delta"]`
unconditionally, so the defect fails with a `KeyError` after the
structure file is already on disk. -/
theorem C10_missing_field_defaults :
    process_spec envAll ⟨some [], none⟩ = (all_artifacts, .ok 6)
    ∧ process_spec envAll ⟨none, none⟩ =
        ([Artifact.poscar], .error .deltaKeyMissing) := by
  constructor
  · norm_num [process_spec, envAll, cell1, latt0, build_supercell_with_phonopy,
      apply_defect, removal_phase, addition_phase, get_sorted_structure,
      sortSites, insertByKey, total_electrons, get_valence_electrons,
      valenceLoop, pyRound, all_artifacts, get_template_folder,
      List.range_succ, round_eq, Int.floor_eq_iff]
  · decide

end VaspDefects
